import Mathlib

/-!
Shallow embedding of `src/wasm32_bindgen.rs` from the `getrandom` wasm32
backend: environment detection (`getrandom_init`), the thread-local source
cache, and the dispatching fill routine (`getrandom_inner`).

Host-provided JavaScript values (the global object's `self` and `crypto`
properties, `crypto.getRandomValues`, `require("crypto")`, and the two fill
primitives) are external capabilities declared in `__wbg_shims.rs`; they are
modelled abstractly as boolean "is undefined" flags and as error behaviours,
following the boundary description of the specification. The fill routines
are instrumented to return the list of primitive calls they issue and the
state transition of the per-thread cache, so that chunking, dispatch,
caching and error propagation can be stated as theorems.
-/

/-- The crate's error type (`Error` wraps an opaque nonzero code; this file
only ever needs the single `UNAVAILABLE_ERROR` value, and the type carries no
message text, mirroring the fact that diagnostic strings are dropped). -/
inductive Error where
  | unavailable
deriving DecidableEq, Repr

/-- The value `UNAVAILABLE_ERROR` from the crate's shared error definitions. -/
def UNAVAILABLE_ERROR : Error := Error.unavailable

/-- Model of the browser's `crypto` JsValue as probed by `getrandom_init`:
whether the value itself is `undefined`, and whether its `getRandomValues`
property is `undefined`. A `BrowserCrypto` handle is this value viewed
through the shim's `BrowserCrypto` wrapper (`crypto.into()`). -/
structure BrowserCrypto where
  isUndefined : Bool
  getRandomValuesFnIsUndefined : Bool
deriving DecidableEq, Repr

/-- Model of the handle returned by the shim `node_require("crypto")`. -/
structure NodeCrypto where
  moduleName : String
deriving DecidableEq, Repr

/-- The shim `node_require`: loads a module by name and returns its handle. -/
def node_require (name : String) : NodeCrypto := ⟨name⟩

/-- The enum `RngSource` from `src/wasm32_bindgen.rs`: the two-variant tagged source. -/
inductive RngSource where
  | Node (n : NodeCrypto)
  | Browser (n : BrowserCrypto)
deriving DecidableEq, Repr

/-- The observable host environment consulted by `getrandom_init`:
whether the global object's `self` property is undefined, and the value of
its `crypto` property. -/
structure HostEnv where
  selfIsUndefined : Bool
  crypto : BrowserCrypto
deriving DecidableEq, Repr

/-- The function `getrandom_init` from `src/wasm32_bindgen.rs`: detect the environment.
`is_browser` is `this.self_() != JsValue::undefined()`. If not a browser,
return `Node(node_require("crypto"))` with no further checks. Otherwise read
`this.crypto()`; if undefined, return `UNAVAILABLE_ERROR` (the message
string `"self.crypto is undefined"` is bound but discarded); else probe
`crypto.get_random_values_fn()`; if undefined, return `UNAVAILABLE_ERROR`
(message `"crypto.getRandomValues is undefined"` likewise discarded); else
return `Browser` wrapping the crypto handle. -/
def getrandom_init (env : HostEnv) : Except Error RngSource :=
  let is_browser := !env.selfIsUndefined
  if !is_browser then
    Except.ok (RngSource.Node (node_require ("crypto")))
  else
    let crypto := env.crypto
    if crypto.isUndefined then
      Except.error UNAVAILABLE_ERROR
    else if crypto.getRandomValuesFnIsUndefined then
      Except.error UNAVAILABLE_ERROR
    else
      Except.ok (RngSource.Browser crypto)

/-- One primitive call issued to the host, with the byte range it fills:
`randomFillSync off len` is `NodeCrypto::random_fill_sync` on the whole
buffer, `getRandomValues off len` is `BrowserCrypto::get_random_values` on
the subslice `[off, off+len)`. -/
inductive PrimCall where
  | randomFillSync (off len : Nat)
  | getRandomValues (off len : Nat)
deriving DecidableEq, Repr

/-- Modelled from the spec: the behaviour of the two host fill primitives
(declared in `__wbg_shims.rs`, external to the sources in scope). Each call
either completes synchronously or raises an error, which per §7 of the
specification surfaces as the generic unavailable condition; the raised
error, if any, is a function of the requested range. -/
structure PrimBehavior where
  randomFillSyncErr : Nat → Option Error
  getRandomValuesErr : Nat → Nat → Option Error

/-- Mirror of Rust's `slice::chunks_mut(sz)` on a slice of length `L`,
returning the (offset, length) of each chunk in iteration order: consecutive
chunks of exactly `sz` bytes, with a final shorter chunk for the remainder,
and no chunks at all for an empty slice. The first argument is structural
fuel, instantiated with `L` (sufficient since every step consumes at least
one byte when `0 < sz`). -/
def chunksMutAux (sz : Nat) : Nat → Nat → Nat → List (Nat × Nat)
  | 0, _, _ => []
  | fuel + 1, off, L =>
    if L = 0 then []
    else if L ≤ sz then [(off, L)]
    else (off, sz) :: chunksMutAux sz fuel (off + sz) (L - sz)

/-- The chunk list of `dest.chunks_mut(sz)` for a destination of length `L`. -/
def chunks_mut (L sz : Nat) : List (Nat × Nat) := chunksMutAux sz L 0 L

/-- Run the browser fill loop `for chunk in dest.chunks_mut(65536) {
n.get_random_values(chunk) }` over a chunk list: issue the calls in order,
stopping at (and propagating) the first raised error. Returns the result
together with the calls actually issued. -/
def runChunks (p : PrimBehavior) : List (Nat × Nat) → Except Error Unit × List PrimCall
  | [] => (Except.ok (), [])
  | c :: cs =>
    match p.getRandomValuesErr c.1 c.2 with
    | some e => (Except.error e, [PrimCall.getRandomValues c.1 c.2])
    | none =>
      let r := runChunks p cs
      (r.1, PrimCall.getRandomValues c.1 c.2 :: r.2)

/-- The `match *source` body of `getrandom_inner`: `Node` invokes
`random_fill_sync` once on the whole `dest`; `Browser` runs the chunked
loop with chunk size 65536. Returns the result and the issued calls. -/
def fillWith (p : PrimBehavior) (s : RngSource) (L : Nat) :
    Except Error Unit × List PrimCall :=
  match s with
  | RngSource.Node _ =>
    (match p.randomFillSyncErr L with
     | some e => Except.error e
     | none => Except.ok (), [PrimCall.randomFillSync 0 L])
  | RngSource.Browser _ => runChunks p (chunks_mut L 65536)

/-- Modelled from the spec: `use_init` from the crate's `utils.rs` (not among
the sources in scope). It consults the cache cell: if the cell already holds
a source, the body runs on it and the initializer is not called; if the cell
is empty, the initializer runs — on failure the error is returned and
nothing is cached (§4.2: "each call to `fill` that finds the cache empty
performs a fresh detection attempt"), on success the source is stored and
the body runs on it. The `Nat` in the result counts initializer runs (0 or
1) for this call. -/
def use_init (cache : Option RngSource) (init_f : Except Error RngSource)
    (use_f : RngSource → Except Error Unit × List PrimCall) :
    (Option RngSource × Nat) × Except Error Unit × List PrimCall :=
  match cache with
  | some s => ((some s, 0), use_f s)
  | none =>
    match init_f with
    | Except.error e => ((none, 1), Except.error e, [])
    | Except.ok s => ((some s, 1), use_f s)

/-- The per-thread state: the `RNG_SOURCE` thread-local cache cell, plus an
observation counter of how many times detection (`getrandom_init`) has run
on this thread. -/
structure ThreadState where
  cache : Option RngSource
  detectCount : Nat
deriving DecidableEq, Repr

/-- A fresh thread's state: empty cache, no detection attempts. -/
def initState : ThreadState := ⟨none, 0⟩

deriving instance DecidableEq for Except

/-- Outcome of one `getrandom_inner` call: either the leading
`assert_eq!(mem::size_of::<usize>(), 4)` panicked, or the call returned a
`Result<(), Error>`. -/
inductive FillOutcome where
  | panicked
  | returned (r : Except Error Unit)
deriving DecidableEq, Repr

/-- The function `getrandom_inner` from `src/wasm32_bindgen.rs`, instrumented: takes the
target's `mem::size_of::<usize>()`, the host environment, the primitive
behaviour, the current thread state and the destination length `L`; returns
the new thread state, the call outcome, and the primitive calls issued.
The pointer-width assertion runs first; a failed assertion panics before
the cache is consulted and before any primitive call. -/
def getrandom_inner (usizeSize : Nat) (env : HostEnv) (p : PrimBehavior)
    (st : ThreadState) (L : Nat) : ThreadState × FillOutcome × List PrimCall :=
  if usizeSize = 4 then
    let r := use_init st.cache (getrandom_init env) (fun s => fillWith p s L)
    (⟨r.1.1, st.detectCount + r.1.2⟩, FillOutcome.returned r.2.1, r.2.2)
  else
    (st, FillOutcome.panicked, [])

/-- A sequence of `fill` calls on one thread, threading the state. -/
def fillMany (usizeSize : Nat) (env : HostEnv) (p : PrimBehavior) :
    ThreadState → List Nat → ThreadState
  | st, [] => st
  | st, L :: Ls => fillMany usizeSize env p (getrandom_inner usizeSize env p st L).1 Ls

/-- The byte range a primitive call fills. -/
def callSpan : PrimCall → Nat × Nat
  | PrimCall.randomFillSync off len => (off, len)
  | PrimCall.getRandomValues off len => (off, len)

/-- The spans are consecutive starting at `off`: each span begins exactly
where the previous one ended (no overlap, no gap, increasing offsets). -/
def spansContiguousFrom (off : Nat) : List (Nat × Nat) → Bool
  | [] => true
  | c :: cs => decide (c.1 = off) && spansContiguousFrom (off + c.2) cs

/-- The calls cover the buffer `[0, L)` exactly: consecutive from offset 0
with total length `L`. -/
def coversExactly (calls : List PrimCall) (L : Nat) : Prop :=
  spansContiguousFrom 0 (calls.map callSpan) = true ∧
  ((calls.map callSpan).map Prod.snd).sum = L

/-! ### Chunking lemmas -/

/-- Closed form for the chunk iterator: with positive chunk size and enough
fuel, the chunks of a length-`L` slice starting at `off` are the
`⌈L / sz⌉` pairs `(off + i·sz, min sz (L − i·sz))` in index order. -/
theorem chunksMutAux_eq (sz : Nat) (hsz : 0 < sz) :
    ∀ fuel L off, L ≤ fuel →
      chunksMutAux sz fuel off L =
        (List.range ((L + sz - 1) / sz)).map
          (fun i => (off + i * sz, min sz (L - i * sz))) := by
  intro fuel
  induction fuel with
  | zero =>
    intro L off hL
    have hL0 : L = 0 := Nat.le_zero.mp hL
    subst hL0
    have hdiv : (sz - 1) / sz = 0 := Nat.div_eq_of_lt (by omega)
    simp [chunksMutAux, hdiv]
  | succ fuel ih =>
    intro L off hL
    simp only [chunksMutAux]
    by_cases h0 : L = 0
    · subst h0
      have hdiv : (sz - 1) / sz = 0 := Nat.div_eq_of_lt (by omega)
      simp [hdiv]
    · simp only [if_neg h0]
      by_cases hle : L ≤ sz
      · have hdiv : (L + sz - 1) / sz = 1 := by
          have h1 : 1 * sz ≤ L + sz - 1 := by omega
          have h2 : L + sz - 1 < (1 + 1) * sz := by omega
          exact Nat.div_eq_of_lt_le h1 h2
        rw [if_pos hle, hdiv]
        simp [List.range_succ, Nat.min_eq_right hle]
      · simp only [if_neg hle]
        have hlt : sz < L := Nat.lt_of_not_le hle
        have hdiv : (L + sz - 1) / sz = ((L - sz) + sz - 1) / sz + 1 := by
          have harg : L + sz - 1 = ((L - sz) + sz - 1) + sz := by omega
          rw [harg, Nat.add_div_right _ hsz]
        rw [ih (L - sz) (off + sz) (by omega), hdiv, List.range_succ_eq_map]
        simp only [List.map_cons, List.map_map]
        refine congrArg₂ List.cons ?_ ?_
        · simp [Nat.min_eq_left (Nat.le_of_lt hlt)]
        · refine List.map_congr_left ?_
          intro i _
          simp only [Function.comp]
          refine congrArg₂ Prod.mk ?_ ?_
          · rw [Nat.succ_mul]; omega
          · rw [Nat.succ_mul]
            have : L - (i * sz + sz) = L - sz - i * sz := by omega
            rw [this]

/-- The chunk spans are consecutive starting at the initial offset. -/
theorem chunksMutAux_contig (sz : Nat) :
    ∀ fuel off L, spansContiguousFrom off (chunksMutAux sz fuel off L) = true := by
  intro fuel
  induction fuel with
  | zero => intro off L; rfl
  | succ fuel ih =>
    intro off L
    simp only [chunksMutAux]
    by_cases h0 : L = 0
    · simp [h0, spansContiguousFrom]
    · by_cases hle : L ≤ sz
      · simp [h0, hle, spansContiguousFrom]
      · simp [h0, hle, spansContiguousFrom, ih]

/-- With positive chunk size and enough fuel, chunk lengths sum to `L`. -/
theorem chunksMutAux_sum (sz : Nat) (hsz : 0 < sz) :
    ∀ fuel off L, L ≤ fuel →
      ((chunksMutAux sz fuel off L).map Prod.snd).sum = L := by
  intro fuel
  induction fuel with
  | zero =>
    intro off L hL
    have hL0 : L = 0 := Nat.le_zero.mp hL
    simp [hL0, chunksMutAux]
  | succ fuel ih =>
    intro off L hL
    simp only [chunksMutAux]
    by_cases h0 : L = 0
    · simp [h0]
    · by_cases hle : L ≤ sz
      · simp [h0, hle]
      · simp only [if_neg h0, if_neg hle, List.map_cons, List.sum_cons]
        rw [ih (off + sz) (L - sz) (by omega)]
        omega

/-- Every chunk has length at most `sz`. -/
theorem chunksMutAux_snd_le (sz : Nat) :
    ∀ fuel off L c, c ∈ chunksMutAux sz fuel off L → c.2 ≤ sz := by
  intro fuel
  induction fuel with
  | zero => intro off L c hc; simp [chunksMutAux] at hc
  | succ fuel ih =>
    intro off L c hc
    simp only [chunksMutAux] at hc
    by_cases h0 : L = 0
    · simp [h0] at hc
    · by_cases hle : L ≤ sz
      · simp [h0, hle] at hc
        simp [hc, hle]
      · simp only [if_neg h0, if_neg hle, List.mem_cons] at hc
        rcases hc with hc | hc
        · simp [hc]
        · exact ih _ _ _ hc

/-- Closed form of `chunks_mut` at the browser chunk size 65536. -/
theorem chunks_mut_eq (L : Nat) :
    chunks_mut L 65536 =
      (List.range ((L + 65535) / 65536)).map
        (fun i => (i * 65536, min 65536 (L - i * 65536))) := by
  have h := chunksMutAux_eq 65536 (by omega) L L 0 (Nat.le_refl L)
  simpa [chunks_mut] using h

/-- The count of chunks is `⌈L / 65536⌉`. -/
theorem chunks_mut_length (L : Nat) :
    (chunks_mut L 65536).length = (L + 65535) / 65536 := by
  rw [chunks_mut_eq]
  simp

/-! ### Dispatcher lemmas -/

/-- A call with the source already cached never runs detection: it keeps the
cache and the detection count and delegates to the cached source's fill. -/
theorem getrandom_inner_cache_hit (env : HostEnv) (p : PrimBehavior)
    (st : ThreadState) (L : Nat) (s : RngSource) (h : st.cache = some s) :
    getrandom_inner 4 env p st L =
      (⟨some s, st.detectCount⟩, FillOutcome.returned (fillWith p s L).1,
        (fillWith p s L).2) := by
  simp [getrandom_inner, use_init, h]

/-- A call with an empty cache and successful detection caches the detected
source, bumps the detection count, and fills with it. -/
theorem getrandom_inner_cache_miss_ok (env : HostEnv) (p : PrimBehavior)
    (st : ThreadState) (L : Nat) (s : RngSource) (hc : st.cache = none)
    (hi : getrandom_init env = Except.ok s) :
    getrandom_inner 4 env p st L =
      (⟨some s, st.detectCount + 1⟩, FillOutcome.returned (fillWith p s L).1,
        (fillWith p s L).2) := by
  simp [getrandom_inner, use_init, hc, hi]

/-- A call with an empty cache and failed detection bumps the detection
count, caches nothing, issues no primitive call and returns the error. -/
theorem getrandom_inner_cache_miss_err (env : HostEnv) (p : PrimBehavior)
    (st : ThreadState) (L : Nat) (e : Error) (hc : st.cache = none)
    (hi : getrandom_init env = Except.error e) :
    getrandom_inner 4 env p st L =
      (⟨none, st.detectCount + 1⟩, FillOutcome.returned (Except.error e), []) := by
  simp [getrandom_inner, use_init, hc, hi]

/-- When no chunk raises, the chunk loop succeeds and issues exactly one
call per chunk, in order. -/
theorem runChunks_ok (p : PrimBehavior) (cs : List (Nat × Nat))
    (h : ∀ c ∈ cs, p.getRandomValuesErr c.1 c.2 = none) :
    runChunks p cs =
      (Except.ok (), cs.map (fun c => PrimCall.getRandomValues c.1 c.2)) := by
  induction cs with
  | nil => rfl
  | cons c cs ih =>
    have hc : p.getRandomValuesErr c.1 c.2 = none := h c (List.mem_cons_self c cs)
    have hrest : ∀ c' ∈ cs, p.getRandomValuesErr c'.1 c'.2 = none :=
      fun c' hc' => h c' (List.mem_cons_of_mem c hc')
    simp [runChunks, hc, ih hrest]

/-- An error coming out of the chunk loop is the error raised by one of the
issued calls, unchanged. -/
theorem runChunks_error_src (p : PrimBehavior) (cs : List (Nat × Nat)) (e : Error)
    (h : (runChunks p cs).1 = Except.error e) :
    ∃ o l, PrimCall.getRandomValues o l ∈ (runChunks p cs).2 ∧
      p.getRandomValuesErr o l = some e := by
  induction cs with
  | nil => simp [runChunks] at h
  | cons c cs ih =>
    rcases he : p.getRandomValuesErr c.1 c.2 with _ | e'
    · simp only [runChunks, he] at h ⊢
      rcases ih h with ⟨o, l, hmem, herr⟩
      exact ⟨o, l, List.mem_cons_of_mem _ hmem, herr⟩
    · have hrc : runChunks p (c :: cs) =
          (Except.error e', [PrimCall.getRandomValues c.1 c.2]) := by
        simp [runChunks, he]
      rw [hrc] at h
      have he' : e' = e := by
        have := congrArg (fun r : Except Error Unit =>
          match r with | Except.error x => x | Except.ok _ => e') h
        exact this
      subst he'
      rw [hrc]
      exact ⟨c.1, c.2, List.mem_cons_self _ _, he⟩

/-- Once the cache holds a source, any sequence of further calls keeps that
source and never re-runs detection. -/
theorem fillMany_cache_stable (env : HostEnv) (p : PrimBehavior) (s : RngSource) :
    ∀ (Ls : List Nat) (st : ThreadState), st.cache = some s →
      (fillMany 4 env p st Ls).cache = some s ∧
      (fillMany 4 env p st Ls).detectCount = st.detectCount := by
  intro Ls
  induction Ls with
  | nil => intro st h; exact ⟨h, rfl⟩
  | cons L Ls ih =>
    intro st h
    have hstep := getrandom_inner_cache_hit env p st L s h
    simp only [fillMany, hstep]
    exact ih _ rfl

/-- One step preserves the cache invariant: after any call, the cache is
still empty or holds exactly a value produced by detection. -/
theorem getrandom_inner_cache_inv (env : HostEnv) (p : PrimBehavior)
    (st : ThreadState) (L : Nat)
    (h : st.cache = none ∨ ∃ s, getrandom_init env = Except.ok s ∧ st.cache = some s) :
    ((getrandom_inner 4 env p st L).1.cache = none ∨
     ∃ s, getrandom_init env = Except.ok s ∧
       (getrandom_inner 4 env p st L).1.cache = some s) := by
  rcases h with hnone | ⟨s, hs, hsome⟩
  · rcases hi : getrandom_init env with e | s
    · rw [getrandom_inner_cache_miss_err env p st L e hnone hi]
      exact Or.inl rfl
    · rw [getrandom_inner_cache_miss_ok env p st L s hnone hi]
      exact Or.inr ⟨s, rfl, rfl⟩
  · rw [getrandom_inner_cache_hit env p st L s hsome]
    exact Or.inr ⟨s, hs, rfl⟩

/-- Every cache value reachable from a state whose cache came from detection
(or is empty) itself came from detection or is empty. -/
theorem fillMany_cache_from_init (env : HostEnv) (p : PrimBehavior) :
    ∀ (Ls : List Nat) (st : ThreadState),
      (st.cache = none ∨ ∃ s, getrandom_init env = Except.ok s ∧ st.cache = some s) →
      ((fillMany 4 env p st Ls).cache = none ∨
       ∃ s, getrandom_init env = Except.ok s ∧ (fillMany 4 env p st Ls).cache = some s) := by
  intro Ls
  induction Ls with
  | nil => intro st h; exact h
  | cons L Ls ih =>
    intro st h
    simp only [fillMany]
    exact ih ((getrandom_inner 4 env p st L).1) (getrandom_inner_cache_inv env p st L h)

/-- A `Browser` source can only come out of detection carrying a crypto
handle that passed both undefinedness checks. -/
theorem getrandom_init_browser_inv (env : HostEnv) (h : BrowserCrypto)
    (hi : getrandom_init env = Except.ok (RngSource.Browser h)) :
    h.isUndefined = false ∧ h.getRandomValuesFnIsUndefined = false := by
  rcases env with ⟨selfU, u1, u2⟩
  cases selfU with
  | true => simp [getrandom_init] at hi
  | false =>
    cases u1 with
    | true => simp [getrandom_init, UNAVAILABLE_ERROR] at hi
    | false =>
      cases u2 with
      | true => simp [getrandom_init, UNAVAILABLE_ERROR] at hi
      | false =>
        simp [getrandom_init] at hi
        subst hi
        exact ⟨rfl, rfl⟩

/-! ### Claim theorems -/

/-- Claim C2: detection classifies the host by whether the global object's
`self` property is defined: if `self` is undefined it returns the
server-runtime (`Node`) variant obtained by loading the module named
"crypto" with no further validation, and if `self` is defined it takes the
browser-like validation path, ending in either the unavailable error or a
`Browser` source. -/
theorem claim_C2_detect_classifies_by_self (env : HostEnv) :
    (env.selfIsUndefined = true →
      getrandom_init env = Except.ok (RngSource.Node (node_require ("crypto"))))
    ∧ (env.selfIsUndefined = false →
      getrandom_init env = Except.error UNAVAILABLE_ERROR ∨
      ∃ b : BrowserCrypto, getrandom_init env = Except.ok (RngSource.Browser b)) := by
  constructor
  · intro hs
    simp [getrandom_init, hs]
  · intro hs
    by_cases h1 : env.crypto.isUndefined
    · exact Or.inl (by simp [getrandom_init, hs, h1])
    · by_cases h2 : env.crypto.getRandomValuesFnIsUndefined
      · exact Or.inl (by simp [getrandom_init, hs, h1, h2])
      · exact Or.inr ⟨env.crypto, by simp [getrandom_init, hs, h1, h2]⟩

/-- Witness for C2: a host without `self` yields the `Node` source loaded
from the module named "crypto". -/
theorem claim_C2_witness :
    getrandom_init ⟨true, ⟨true, true⟩⟩ =
      Except.ok (RngSource.Node (node_require ("crypto"))) :=
  (claim_C2_detect_classifies_by_self ⟨true, ⟨true, true⟩⟩).1 rfl

/-- Claim C3: in the browser-like path, detection fails with the generic
`UNAVAILABLE_ERROR` when the `crypto` property is undefined, fails with the
very same `UNAVAILABLE_ERROR` value when `crypto` is defined but its
`getRandomValues` function is undefined (the two diagnostic strings are
discarded — the returned error carries no message and is identical in both
cases), and otherwise returns `Browser` wrapping the validated handle. -/
theorem claim_C3_browser_validation (env : HostEnv)
    (hb : env.selfIsUndefined = false) :
    (env.crypto.isUndefined = true →
      getrandom_init env = Except.error UNAVAILABLE_ERROR)
    ∧ (env.crypto.isUndefined = false →
        env.crypto.getRandomValuesFnIsUndefined = true →
      getrandom_init env = Except.error UNAVAILABLE_ERROR)
    ∧ (env.crypto.isUndefined = false →
        env.crypto.getRandomValuesFnIsUndefined = false →
      getrandom_init env = Except.ok (RngSource.Browser env.crypto)) := by
  refine ⟨?_, ?_, ?_⟩
  · intro h1
    simp [getrandom_init, hb, h1]
  · intro h1 h2
    simp [getrandom_init, hb, h1, h2]
  · intro h1 h2
    simp [getrandom_init, hb, h1, h2]

/-- Witness for C3: a browser-like host with `crypto` undefined fails with
the unavailable error. -/
theorem claim_C3_witness :
    getrandom_init ⟨false, ⟨true, false⟩⟩ = Except.error UNAVAILABLE_ERROR :=
  (claim_C3_browser_validation ⟨false, ⟨true, false⟩⟩ rfl).1 rfl

/-- Claim C7: with the server-runtime source cached, fill invokes the
module's synchronous random-fill primitive exactly once on the entire
buffer, with no chunking; and any host detected as server-side routes the
same way from an empty cache. -/
theorem claim_C7_node_whole_buffer (env : HostEnv) (p : PrimBehavior)
    (st : ThreadState) (L : Nat) (n : NodeCrypto)
    (hc : st.cache = some (RngSource.Node n)) :
    (getrandom_inner 4 env p st L).2.2 = [PrimCall.randomFillSync 0 L]
    ∧ (∀ (env' : HostEnv) (st' : ThreadState), env'.selfIsUndefined = true →
        st'.cache = none →
        (getrandom_inner 4 env' p st' L).2.2 = [PrimCall.randomFillSync 0 L]) := by
  constructor
  · rw [getrandom_inner_cache_hit env p st L _ hc]
    rfl
  · intro env' st' hs hc'
    have hi : getrandom_init env' =
        Except.ok (RngSource.Node (node_require ("crypto"))) := by
      simp [getrandom_init, hs]
    rw [getrandom_inner_cache_miss_ok env' p st' L _ hc' hi]
    rfl

/-- Witness for C7: a 200000-byte buffer is filled by a single whole-buffer
call when the `Node` source is cached. -/
theorem claim_C7_witness :
    (getrandom_inner 4 ⟨true, ⟨true, true⟩⟩ ⟨fun _ => none, fun _ _ => none⟩
      ⟨some (RngSource.Node ⟨"crypto"⟩), 1⟩ 200000).2.2 =
      [PrimCall.randomFillSync 0 200000] :=
  (claim_C7_node_whole_buffer ⟨true, ⟨true, true⟩⟩ ⟨fun _ => none, fun _ _ => none⟩
    ⟨some (RngSource.Node ⟨"crypto"⟩), 1⟩ 200000 ⟨"crypto"⟩ rfl).1

/-- Claim C9: every fill call first asserts that the target's pointer width
is 4 bytes; on any target where it is not, the call panics before
consulting the cache or issuing any primitive call, for every buffer length
including zero. -/
theorem claim_C9_pointer_width_assert (usizeSize : Nat) (h : usizeSize ≠ 4)
    (env : HostEnv) (p : PrimBehavior) (st : ThreadState) (L : Nat) :
    getrandom_inner usizeSize env p st L = (st, FillOutcome.panicked, []) := by
  simp [getrandom_inner, h]

/-- Witness for C9: a 64-bit target panics on an empty-buffer fill with the
state untouched. -/
theorem claim_C9_witness :
    getrandom_inner 8 ⟨true, ⟨true, true⟩⟩ ⟨fun _ => none, fun _ _ => none⟩
      initState 0 = (initState, FillOutcome.panicked, []) :=
  claim_C9_pointer_width_assert 8 (by decide) ⟨true, ⟨true, true⟩⟩
    ⟨fun _ => none, fun _ _ => none⟩ initState 0

/-- Taking the spans of the calls issued for a chunk list recovers the
chunk list itself. -/
theorem map_callSpan_chunks (cs : List (Nat × Nat)) :
    List.map callSpan
      (List.map (fun c => PrimCall.getRandomValues c.1 c.2) cs) = cs := by
  rw [List.map_map]
  exact List.map_id _

/-- With the browser source cached and no chunk failure, the issued calls
are exactly one `getRandomValues` per chunk of `chunks_mut L 65536`. -/
theorem getrandom_inner_browser_calls (env : HostEnv) (p : PrimBehavior)
    (st : ThreadState) (b : BrowserCrypto) (L : Nat)
    (hc : st.cache = some (RngSource.Browser b))
    (hB : ∀ o l, p.getRandomValuesErr o l = none) :
    (getrandom_inner 4 env p st L).2.2 =
      (chunks_mut L 65536).map (fun c => PrimCall.getRandomValues c.1 c.2) := by
  rw [getrandom_inner_cache_hit env p st L _ hc]
  show (runChunks p (chunks_mut L 65536)).2 = _
  rw [runChunks_ok p _ (fun c _ => hB c.1 c.2)]

/-- With the browser source cached and no chunk failure, the call returns
success. -/
theorem getrandom_inner_browser_ok (env : HostEnv) (p : PrimBehavior)
    (st : ThreadState) (b : BrowserCrypto) (L : Nat)
    (hc : st.cache = some (RngSource.Browser b))
    (hB : ∀ o l, p.getRandomValuesErr o l = none) :
    (getrandom_inner 4 env p st L).2.1 = FillOutcome.returned (Except.ok ()) := by
  rw [getrandom_inner_cache_hit env p st L _ hc]
  show FillOutcome.returned (runChunks p (chunks_mut L 65536)).1 = _
  rw [runChunks_ok p _ (fun c _ => hB c.1 c.2)]

/-- Claim C1: with the browser source cached and no primitive failure, fill
splits a length-`L` buffer into `⌈L/65536⌉` consecutive chunks in
increasing offset order — chunk `i` starts at offset `i·65536` and has
length `min 65536 (L − i·65536)`, so every chunk is at most 65536 bytes
with only the last possibly shorter — and issues one `getRandomValues`
call per chunk, the calls covering the buffer exactly with no overlap and
no gap; in particular `L = 65536` is issued as one call and `L = 65537` as
two calls of 65536 and 1 bytes. -/
theorem claim_C1_browser_chunked_fill (env : HostEnv) (p : PrimBehavior)
    (st : ThreadState) (b : BrowserCrypto) (L : Nat)
    (hc : st.cache = some (RngSource.Browser b))
    (hp : ∀ o l, p.getRandomValuesErr o l = none) :
    (getrandom_inner 4 env p st L).2.2 =
      (List.range ((L + 65535) / 65536)).map
        (fun i => PrimCall.getRandomValues (i * 65536) (min 65536 (L - i * 65536)))
    ∧ (getrandom_inner 4 env p st L).2.2.length = (L + 65535) / 65536
    ∧ (∀ c ∈ (getrandom_inner 4 env p st L).2.2, (callSpan c).2 ≤ 65536)
    ∧ coversExactly ((getrandom_inner 4 env p st L).2.2) L
    ∧ (getrandom_inner 4 env p st 65536).2.2.length = 1
    ∧ (getrandom_inner 4 env p st 65537).2.2 =
        [PrimCall.getRandomValues 0 65536, PrimCall.getRandomValues 65536 1] := by
  have hfill := fun M => getrandom_inner_browser_calls env p st b M hc hp
  have hspan : ∀ M, ((getrandom_inner 4 env p st M).2.2).map callSpan =
      chunks_mut M 65536 := by
    intro M
    rw [hfill M]
    exact map_callSpan_chunks _
  refine ⟨?_, ?_, ?_, ⟨?_, ?_⟩, ?_, ?_⟩
  · rw [hfill L, chunks_mut_eq L, List.map_map]
    rfl
  · rw [hfill L]
    simp [chunks_mut_length]
  · intro c hcmem
    rw [hfill L] at hcmem
    rcases List.mem_map.mp hcmem with ⟨ch, hch, rfl⟩
    exact chunksMutAux_snd_le 65536 L 0 L ch hch
  · rw [hspan L]
    exact chunksMutAux_contig 65536 L 0 L
  · rw [hspan L]
    exact chunksMutAux_sum 65536 (by omega) L 0 L (Nat.le_refl L)
  · rw [hfill 65536]
    rfl
  · rw [hfill 65537]
    rfl

/-- Witness for C1: a 65537-byte browser fill issues exactly the calls for
chunks of 65536 and 1 bytes. -/
theorem claim_C1_witness :
    (getrandom_inner 4 ⟨false, ⟨false, false⟩⟩ ⟨fun _ => none, fun _ _ => none⟩
      ⟨some (RngSource.Browser ⟨false, false⟩), 1⟩ 65537).2.2 =
      [PrimCall.getRandomValues 0 65536, PrimCall.getRandomValues 65536 1] :=
  (claim_C1_browser_chunked_fill ⟨false, ⟨false, false⟩⟩
    ⟨fun _ => none, fun _ _ => none⟩ ⟨some (RngSource.Browser ⟨false, false⟩), 1⟩
    ⟨false, false⟩ 65537 rfl (fun _ _ => rfl)).2.2.2.2.2

/-- Claim C4: once a fill call succeeds in detecting a source, every
subsequent fill call on the thread reuses the identical cached source and
detection never runs again on the thread: across any number of calls after
the first successful one, detection has run exactly once. -/
theorem claim_C4_detection_runs_once (env : HostEnv) (p : PrimBehavior)
    (s : RngSource) (hdet : getrandom_init env = Except.ok s)
    (L0 : Nat) (Ls : List Nat) :
    (getrandom_inner 4 env p initState L0).1.cache = some s
    ∧ (getrandom_inner 4 env p initState L0).1.detectCount = 1
    ∧ (fillMany 4 env p (getrandom_inner 4 env p initState L0).1 Ls).cache = some s
    ∧ (fillMany 4 env p (getrandom_inner 4 env p initState L0).1 Ls).detectCount
        = 1 := by
  have hstep := getrandom_inner_cache_miss_ok env p initState L0 s rfl hdet
  rw [hstep]
  have hstable := fillMany_cache_stable env p s Ls
    ⟨some s, initState.detectCount + 1⟩ rfl
  exact ⟨rfl, rfl, hstable.1, hstable.2⟩

/-- Witness for C4: after a first successful call on a server-side host, two
further calls leave the detection count at exactly one. -/
theorem claim_C4_witness :
    (fillMany 4 ⟨true, ⟨true, true⟩⟩ ⟨fun _ => none, fun _ _ => none⟩
        (getrandom_inner 4 ⟨true, ⟨true, true⟩⟩ ⟨fun _ => none, fun _ _ => none⟩
          initState 1).1 [2, 3]).detectCount = 1 :=
  (claim_C4_detection_runs_once ⟨true, ⟨true, true⟩⟩
    ⟨fun _ => none, fun _ _ => none⟩ (RngSource.Node ⟨"crypto"⟩) rfl 1 [2, 3]).2.2.2

/-- Counterexample to claim C5: in a host where detection fails (browser-like
global object with `crypto` undefined), a first fill call runs detection
and fails, and a second fill call on the same thread runs detection again —
the detection count reaches 2, so the failure is not cached and detection
is re-attempted, contradicting "no later fill call on that thread attempts
detection again". -/
theorem claim_C5_counterexample :
    ((getrandom_inner 4 ⟨false, ⟨true, true⟩⟩ ⟨fun _ => none, fun _ _ => none⟩
        initState 1).1.detectCount = 1)
    ∧ ((getrandom_inner 4 ⟨false, ⟨true, true⟩⟩ ⟨fun _ => none, fun _ _ => none⟩
        (getrandom_inner 4 ⟨false, ⟨true, true⟩⟩ ⟨fun _ => none, fun _ _ => none⟩
          initState 1).1 1).1.detectCount = 2) :=
  ⟨rfl, rfl⟩

/-- Claim C5 (amended): once detection has failed on a thread, the cache
stays empty and the failure repeats — every later fill call re-attempts
detection (exactly one further detection run per call) and returns the same
error, so with an unchanged environment the failure is permanent in effect,
but detection is re-run on every call rather than the failure being cached. -/
theorem claim_C5_amended_failure_rerun (env : HostEnv) (p : PrimBehavior)
    (e : Error) (hdet : getrandom_init env = Except.error e) :
    ∀ (Ls : List Nat) (st : ThreadState), st.cache = none →
      (fillMany 4 env p st Ls).cache = none
      ∧ (fillMany 4 env p st Ls).detectCount = st.detectCount + Ls.length
      ∧ ∀ L, (getrandom_inner 4 env p st L).2.1 =
          FillOutcome.returned (Except.error e) := by
  intro Ls
  induction Ls with
  | nil =>
    intro st hc
    refine ⟨hc, rfl, ?_⟩
    intro L
    rw [getrandom_inner_cache_miss_err env p st L e hc hdet]
  | cons L Ls ih =>
    intro st hc
    simp only [fillMany]
    rw [getrandom_inner_cache_miss_err env p st L e hc hdet]
    rcases ih ⟨none, st.detectCount + 1⟩ rfl with ⟨h1, h2, _⟩
    refine ⟨h1, ?_, ?_⟩
    · rw [h2]
      simp only [List.length_cons]
      omega
    · intro L'
      rw [getrandom_inner_cache_miss_err env p st L' e hc hdet]

/-- Witness for the amended C5: two calls after a failed detection leave the
cache empty and the detection count at two. -/
theorem claim_C5_amended_witness :
    (fillMany 4 ⟨false, ⟨true, true⟩⟩ ⟨fun _ => none, fun _ _ => none⟩
        initState [1, 2]).cache = none
    ∧ (fillMany 4 ⟨false, ⟨true, true⟩⟩ ⟨fun _ => none, fun _ _ => none⟩
        initState [1, 2]).detectCount
      = initState.detectCount + ([1, 2] : List Nat).length :=
  ⟨(claim_C5_amended_failure_rerun ⟨false, ⟨true, true⟩⟩
      ⟨fun _ => none, fun _ _ => none⟩ Error.unavailable rfl [1, 2] initState rfl).1,
   (claim_C5_amended_failure_rerun ⟨false, ⟨true, true⟩⟩
      ⟨fun _ => none, fun _ _ => none⟩ Error.unavailable rfl [1, 2] initState rfl).2.1⟩

/-- When every chunk before `c` succeeds and `c` raises `e`, the chunk loop
stops at `c` and returns exactly `e`, having issued the calls up to and
including `c`. This is the error actually raised during execution: the
loop never reaches the chunks after `c`. -/
theorem runChunks_error_at (p : PrimBehavior) :
    ∀ (cs1 : List (Nat × Nat)) (c : Nat × Nat) (cs2 : List (Nat × Nat)) (e : Error),
      (∀ c' ∈ cs1, p.getRandomValuesErr c'.1 c'.2 = none) →
      p.getRandomValuesErr c.1 c.2 = some e →
      runChunks p (cs1 ++ c :: cs2) =
        (Except.error e,
         cs1.map (fun c' => PrimCall.getRandomValues c'.1 c'.2) ++
           [PrimCall.getRandomValues c.1 c.2]) := by
  intro cs1
  induction cs1 with
  | nil =>
    intro c cs2 e _ hc
    simp [runChunks, hc]
  | cons a cs1 ih =>
    intro c cs2 e h1 hc
    have ha : p.getRandomValuesErr a.1 a.2 = none := h1 a (List.mem_cons_self a cs1)
    have h1' : ∀ c' ∈ cs1, p.getRandomValuesErr c'.1 c'.2 = none :=
      fun c' hc' => h1 c' (List.mem_cons_of_mem a hc')
    simp [runChunks, ha, ih c cs2 e h1' hc]

/-- Claim C6: failures propagate to the caller unchanged as the generic
error condition: a detection failure surfaces as the returned error; a
failure raised by the server-side whole-buffer primitive surfaces as the
returned error; a failure raised during the chunked browser fill — at the
first failing chunk, the only one execution ever reaches — surfaces as the
returned error; and conversely any error the chunked fill returns is
exactly the one raised by one of the issued chunk calls. -/
theorem claim_C6_error_propagation (env : HostEnv) (p : PrimBehavior)
    (st : ThreadState) (L : Nat) :
    (st.cache = none → ∀ e, getrandom_init env = Except.error e →
      (getrandom_inner 4 env p st L).2.1 = FillOutcome.returned (Except.error e))
    ∧ (∀ n, st.cache = some (RngSource.Node n) →
        ∀ e, p.randomFillSyncErr L = some e →
      (getrandom_inner 4 env p st L).2.1 = FillOutcome.returned (Except.error e))
    ∧ (∀ b, st.cache = some (RngSource.Browser b) →
        ∀ (cs1 : List (Nat × Nat)) (c : Nat × Nat) (cs2 : List (Nat × Nat)) (e : Error),
        chunks_mut L 65536 = cs1 ++ c :: cs2 →
        (∀ c' ∈ cs1, p.getRandomValuesErr c'.1 c'.2 = none) →
        p.getRandomValuesErr c.1 c.2 = some e →
      (getrandom_inner 4 env p st L).2.1 = FillOutcome.returned (Except.error e))
    ∧ (∀ b, st.cache = some (RngSource.Browser b) → ∀ e,
      (getrandom_inner 4 env p st L).2.1 = FillOutcome.returned (Except.error e) →
      ∃ o l, PrimCall.getRandomValues o l ∈ (getrandom_inner 4 env p st L).2.2 ∧
        p.getRandomValuesErr o l = some e) := by
  refine ⟨?_, ?_, ?_, ?_⟩
  · intro hc e hi
    rw [getrandom_inner_cache_miss_err env p st L e hc hi]
  · intro n hc e hp
    rw [getrandom_inner_cache_hit env p st L _ hc]
    show FillOutcome.returned (fillWith p (RngSource.Node n) L).1 = _
    simp [fillWith, hp]
  · intro b hc cs1 c cs2 e hsplit h1 hcerr
    rw [getrandom_inner_cache_hit env p st L _ hc]
    show FillOutcome.returned (runChunks p (chunks_mut L 65536)).1 = _
    rw [hsplit, runChunks_error_at p cs1 c cs2 e h1 hcerr]
  · intro b hc e herr
    rw [getrandom_inner_cache_hit env p st L _ hc] at herr ⊢
    have h1 : (runChunks p (chunks_mut L 65536)).1 = Except.error e :=
      FillOutcome.returned.inj herr
    exact runChunks_error_src p (chunks_mut L 65536) e h1

/-- Witness for C6: on a 70000-byte browser fill whose second chunk (at
offset 65536) raises, the call returns exactly that raised error. -/
theorem claim_C6_witness :
    (getrandom_inner 4 ⟨false, ⟨false, false⟩⟩
      ⟨fun _ => none, fun o _ => if o = 65536 then some Error.unavailable else none⟩
      ⟨some (RngSource.Browser ⟨false, false⟩), 1⟩ 70000).2.1 =
      FillOutcome.returned (Except.error Error.unavailable) :=
  (claim_C6_error_propagation ⟨false, ⟨false, false⟩⟩
    ⟨fun _ => none, fun o _ => if o = 65536 then some Error.unavailable else none⟩
    ⟨some (RngSource.Browser ⟨false, false⟩), 1⟩ 70000).2.2.1
    ⟨false, false⟩ rfl [(0, 65536)] (65536, 4464) [] Error.unavailable rfl
    (by decide) rfl

/-- Counterexample to claim C8: with the server-runtime source cached, a
zero-length fill succeeds but issues one underlying call — the whole-buffer
`randomFillSync` on the empty buffer — not zero calls as the claim's
parenthetical asserts. -/
theorem claim_C8_counterexample :
    (getrandom_inner 4 ⟨true, ⟨true, true⟩⟩ ⟨fun _ => none, fun _ _ => none⟩
        ⟨some (RngSource.Node ⟨"crypto"⟩), 1⟩ 0).2.1 =
      FillOutcome.returned (Except.ok ())
    ∧ (getrandom_inner 4 ⟨true, ⟨true, true⟩⟩ ⟨fun _ => none, fun _ _ => none⟩
        ⟨some (RngSource.Node ⟨"crypto"⟩), 1⟩ 0).2.2 = [PrimCall.randomFillSync 0 0]
    ∧ [PrimCall.randomFillSync 0 0] ≠ ([] : List PrimCall) :=
  ⟨rfl, rfl, by decide⟩

/-- Claim C8 (amended): fill accepts a destination of any length including
zero; when no primitive fails it returns success, and the issued calls
cover all `L` bytes of the buffer exactly; a zero-length buffer succeeds —
with zero underlying fill calls on the browser path, while the server path
still issues its single whole-buffer call on the (empty) buffer. -/
theorem claim_C8_amended_any_length (env : HostEnv) (p : PrimBehavior)
    (st : ThreadState) (s : RngSource) (L : Nat) (hc : st.cache = some s)
    (hN : ∀ n, p.randomFillSyncErr n = none)
    (hB : ∀ o l, p.getRandomValuesErr o l = none) :
    (getrandom_inner 4 env p st L).2.1 = FillOutcome.returned (Except.ok ())
    ∧ coversExactly ((getrandom_inner 4 env p st L).2.2) L
    ∧ (∀ b, s = RngSource.Browser b → (getrandom_inner 4 env p st 0).2.2 = []) := by
  rcases s with n | b
  · refine ⟨?_, ⟨?_, ?_⟩, ?_⟩
    · rw [getrandom_inner_cache_hit env p st L _ hc]
      show FillOutcome.returned (fillWith p (RngSource.Node n) L).1 = _
      simp [fillWith, hN]
    · rw [getrandom_inner_cache_hit env p st L _ hc]
      show spansContiguousFrom 0
        (List.map callSpan [PrimCall.randomFillSync 0 L]) = true
      simp [callSpan, spansContiguousFrom]
    · rw [getrandom_inner_cache_hit env p st L _ hc]
      show ((List.map callSpan [PrimCall.randomFillSync 0 L]).map Prod.snd).sum = L
      simp [callSpan]
    · intro b heq
      exact absurd heq (by simp)
  · refine ⟨getrandom_inner_browser_ok env p st b L hc hB, ⟨?_, ?_⟩, ?_⟩
    · rw [getrandom_inner_browser_calls env p st b L hc hB, map_callSpan_chunks]
      exact chunksMutAux_contig 65536 L 0 L
    · rw [getrandom_inner_browser_calls env p st b L hc hB, map_callSpan_chunks]
      exact chunksMutAux_sum 65536 (by omega) L 0 L (Nat.le_refl L)
    · intro b' _
      rw [getrandom_inner_cache_hit env p st 0 _ hc]
      rfl

/-- Witness for the amended C8: a zero-length browser fill succeeds with no
underlying calls. -/
theorem claim_C8_amended_witness :
    (getrandom_inner 4 ⟨false, ⟨false, false⟩⟩ ⟨fun _ => none, fun _ _ => none⟩
        ⟨some (RngSource.Browser ⟨false, false⟩), 1⟩ 0).2.1 =
      FillOutcome.returned (Except.ok ())
    ∧ (getrandom_inner 4 ⟨false, ⟨false, false⟩⟩ ⟨fun _ => none, fun _ _ => none⟩
        ⟨some (RngSource.Browser ⟨false, false⟩), 1⟩ 0).2.2 = [] :=
  ⟨(claim_C8_amended_any_length ⟨false, ⟨false, false⟩⟩
      ⟨fun _ => none, fun _ _ => none⟩ ⟨some (RngSource.Browser ⟨false, false⟩), 1⟩
      (RngSource.Browser ⟨false, false⟩) 0 rfl (fun _ => rfl) (fun _ _ => rfl)).1,
   (claim_C8_amended_any_length ⟨false, ⟨false, false⟩⟩
      ⟨fun _ => none, fun _ _ => none⟩ ⟨some (RngSource.Browser ⟨false, false⟩), 1⟩
      (RngSource.Browser ⟨false, false⟩) 0 rfl (fun _ => rfl) (fun _ _ => rfl)).2.2
    ⟨false, false⟩ rfl⟩

/-- Claim C10: any `Browser` source that detection can ever place in the
thread-local cache — that is, any `Browser` value cached after an arbitrary
sequence of fill calls starting from a fresh thread — wraps a crypto handle
that passed both detection-time checks: the handle is defined and its
`getRandomValues` function is defined. -/
theorem claim_C10_cached_browser_validated (env : HostEnv) (p : PrimBehavior)
    (Ls : List Nat) (b : BrowserCrypto)
    (hc : (fillMany 4 env p initState Ls).cache = some (RngSource.Browser b)) :
    b.isUndefined = false ∧ b.getRandomValuesFnIsUndefined = false := by
  rcases fillMany_cache_from_init env p Ls initState (Or.inl rfl) with hn | ⟨s, hs, hsome⟩
  · rw [hc] at hn
    exact absurd hn (by simp)
  · rw [hc] at hsome
    have hs' : s = RngSource.Browser b := (Option.some.inj hsome).symm
    subst hs'
    exact getrandom_init_browser_inv env b hs

/-- Witness for C10: the handle cached on a browser-like host with a working
crypto object indeed has both flags cleared. -/
theorem claim_C10_witness :
    BrowserCrypto.isUndefined ⟨false, false⟩ = false ∧
    BrowserCrypto.getRandomValuesFnIsUndefined ⟨false, false⟩ = false :=
  claim_C10_cached_browser_validated ⟨false, ⟨false, false⟩⟩
    ⟨fun _ => none, fun _ _ => none⟩ [1] ⟨false, false⟩ rfl
